import Mathlib

/-!
Verification development for the api-test-framework request/event
execution lifecycle.

Shallow embedding of:
  core/retry.py                  (retry decorator, sync and async wrappers)
  core/messaging/base_consumer.py (consume_one / consume_until loop)
  core/client/base_client.py     (request lifecycle, thread-local observation)
  core/messaging/base_producer.py (publish lifecycle)
  core/response_handler.py       (handler chain, Allure attachment handler)
  core/auth/oauth2_auth.py       (token cache with expiry under a lock)

Conventions: Python floats (times, backoff factors) are modelled as ℚ;
wall-clock time is threaded explicitly; raising is modelled with Except;
an exception value carries its Python class name in the field ty so that
isinstance-style checks against configured type tuples become membership
of ty in a list of class names.  Opaque Python values (raw transport
messages, JSON bodies) are modelled as String stand-ins; none of the
embedded code inspects their structure.
-/

namespace ATF

/-- A Python exception value: its class name and message. -/
structure Exc where
  ty : String
  msg : String
deriving DecidableEq, Repr

/-- APIResponse from core/client/base_client.py.  The raw_response
passthrough field (an opaque transport object, never inspected by the
embedded code) is omitted.  json_data = none models Python None. -/
structure APIResponse where
  status_code : Nat
  json_data : Option String
  headers : List (String × String)
  elapsed_ms : ℚ
deriving DecidableEq, Repr

/-! ## core/retry.py -/

/-- A value returned by the wrapped callable: either an APIResponse
(isinstance(result, APIResponse) is true) or some other object. -/
inductive RetValue where
  | api (resp : APIResponse)
  | other (tag : String)
deriving DecidableEq, Repr

/-- Outcome of one invocation of the wrapped callable: it returns a value
or raises an exception. -/
inductive CallOutcome where
  | ret (v : RetValue)
  | raised (e : Exc)
deriving DecidableEq, Repr

/-- Arguments of the retry decorator, with the source defaults. -/
structure RetryConfig where
  max_attempts : Nat := 3
  backoff_factor : ℚ := 2
  retryable_statuses : List Nat := [500, 502, 503, 504]
  retryable_exceptions : List String := ["ConnectionError", "TimeoutError"]

/-- Outcome of the whole wrapper: it returns a value, raises an exception,
or executes `raise last_exc` with last_exc still None (dead code unless
max_attempts < 1; in Python this raises a TypeError). -/
inductive RetryOutcome where
  | ok (v : RetValue)
  | exc (e : Exc)
  | badRaiseNone
deriving DecidableEq, Repr

/-- Trace of one run of the wrapper: the outcome, how many times the
wrapped callable was invoked, and the sleeps performed in order. -/
structure RunTrace where
  out : RetryOutcome
  calls : Nat
  waits : List ℚ
deriving DecidableEq, Repr

/-- The condition `isinstance(result, APIResponse) and result.status_code
in retryable` from the wrapper body. -/
def statusRetryable (cfg : RetryConfig) (v : RetValue) : Bool :=
  match v with
  | .api resp => cfg.retryable_statuses.contains resp.status_code
  | .other _ => false

/-- The `except retryable_exceptions` classification: the raised
exception's class is one of the configured retryable types. -/
def excRetryable (cfg : RetryConfig) (e : Exc) : Bool :=
  cfg.retryable_exceptions.contains e.ty

/-- The body of sync_wrapper's `for attempt in range(1, max_attempts + 1)`
loop.  `f k` is the outcome of invoking the wrapped callable on attempt k;
fuel is the number of loop iterations left (max_attempts + 1 - attempt at
the top-level call); lastExc is the `last_exc` variable.  When fuel runs
out the trailing `raise last_exc` executes. -/
def retryGo (cfg : RetryConfig) (f : Nat → CallOutcome) :
    Nat → Nat → Option Exc → RunTrace
  | _attempt, 0, lastExc =>
      { out := match lastExc with
               | some e => .exc e
               | none => .badRaiseNone,
        calls := 0, waits := [] }
  | attempt, fuel + 1, lastExc =>
      match f attempt with
      | .ret v =>
          if statusRetryable cfg v && decide (attempt < cfg.max_attempts) then
            let rest := retryGo cfg f (attempt + 1) fuel lastExc
            { out := rest.out, calls := rest.calls + 1,
              waits := cfg.backoff_factor ^ (attempt - 1) :: rest.waits }
          else
            { out := .ok v, calls := 1, waits := [] }
      | .raised e =>
          if excRetryable cfg e then
            if attempt < cfg.max_attempts then
              let rest := retryGo cfg f (attempt + 1) fuel (some e)
              { out := rest.out, calls := rest.calls + 1,
                waits := cfg.backoff_factor ^ (attempt - 1) :: rest.waits }
            else
              { out := .exc e, calls := 1, waits := [] }
          else
            { out := .exc e, calls := 1, waits := [] }

/-- sync_wrapper from core/retry.py: attempts start at 1, the loop runs at
most max_attempts iterations, last_exc starts as None. -/
def sync_wrapper (cfg : RetryConfig) (f : Nat → CallOutcome) : RunTrace :=
  retryGo cfg f 1 cfg.max_attempts none

/-- The loop body of async_wrapper, which is textually identical to the
sync one except that the inter-attempt wait uses `await asyncio.sleep`
instead of `time.sleep`; the model records both as a wait entry. -/
def asyncRetryGo (cfg : RetryConfig) (f : Nat → CallOutcome) :
    Nat → Nat → Option Exc → RunTrace
  | _attempt, 0, lastExc =>
      { out := match lastExc with
               | some e => .exc e
               | none => .badRaiseNone,
        calls := 0, waits := [] }
  | attempt, fuel + 1, lastExc =>
      match f attempt with
      | .ret v =>
          if statusRetryable cfg v && decide (attempt < cfg.max_attempts) then
            let rest := asyncRetryGo cfg f (attempt + 1) fuel lastExc
            { out := rest.out, calls := rest.calls + 1,
              waits := cfg.backoff_factor ^ (attempt - 1) :: rest.waits }
          else
            { out := .ok v, calls := 1, waits := [] }
      | .raised e =>
          if excRetryable cfg e then
            if attempt < cfg.max_attempts then
              let rest := asyncRetryGo cfg f (attempt + 1) fuel (some e)
              { out := rest.out, calls := rest.calls + 1,
                waits := cfg.backoff_factor ^ (attempt - 1) :: rest.waits }
            else
              { out := .exc e, calls := 1, waits := [] }
          else
            { out := .exc e, calls := 1, waits := [] }

/-- async_wrapper from core/retry.py. -/
def async_wrapper (cfg : RetryConfig) (f : Nat → CallOutcome) : RunTrace :=
  asyncRetryGo cfg f 1 cfg.max_attempts none

/-! ## core/messaging/base_consumer.py -/

/-- ConsumedEvent from base_consumer.py.  The raw bytes payload and the
JSON body dict are modelled as opaque strings. -/
structure ConsumedEvent where
  topic : String
  key : Option String := none
  body : Option String := none
  raw_body : String := ""
  headers : List (String × String) := []
  partition : Option Int := none
  offset : Option Int := none
  timestamp_ms : Option ℚ := none
deriving DecidableEq, Repr

/-- One _poll call as seen from outside the abstract transport hook:
the wall-clock time the call consumed and the raw message it returned
(none models Python None, i.e. nothing arrived within the timeout). -/
structure PollStep where
  dt : ℚ
  msg : Option String
deriving DecidableEq, Repr

/-- Record of one _poll invocation made by the loop: the monotonic clock
value when it was issued and the timeout argument passed to it. -/
structure PollCall where
  at_time : ℚ
  timeout : ℚ
deriving DecidableEq, Repr

/-- Trace of one consume_until run: the returned event (none on
timeout/budget exhaustion), the final value of the `consumed` counter
(deserialized events examined), the _poll calls issued in order, and the
part of the transport's message stream the loop never consumed. -/
structure ConsumeLog where
  result : Option ConsumedEvent
  examined : Nat
  polls : List PollCall
  rest : List PollStep
deriving DecidableEq, Repr

/-- The `while consumed < max_messages` loop of consume_until.  deser is
the adapter's _deserialize hook, pred the caller's predicate, deadline the
precomputed monotonic deadline; the transport's behaviour on successive
_poll calls is the trace list (the loop returns no-result if the transport
stays silent forever, which the model cuts off at trace exhaustion); now
is the current monotonic clock and consumed the examined-message counter. -/
def consumeUntilGo (deser : String → ConsumedEvent) (pred : ConsumedEvent → Bool)
    (deadline : ℚ) (max_messages : Nat) :
    List PollStep → ℚ → Nat → ConsumeLog
  | trace, now, consumed =>
    if consumed < max_messages then
      if deadline - now ≤ 0 then
        { result := none, examined := consumed, polls := [], rest := trace }
      else
      match trace with
      | [] => { result := none, examined := consumed, polls := [], rest := [] }
      | step :: tr =>
        let tmo := min (deadline - now) 1
        let now2 := now + step.dt
        match step.msg with
        | none =>
          let r := consumeUntilGo deser pred deadline max_messages tr now2 consumed
          { result := r.result, examined := r.examined,
            polls := { at_time := now, timeout := tmo } :: r.polls, rest := r.rest }
        | some m =>
          let ev := deser m
          if pred ev then
            { result := some ev, examined := consumed + 1,
              polls := [{ at_time := now, timeout := tmo }], rest := tr }
          else
            let r := consumeUntilGo deser pred deadline max_messages tr now2 (consumed + 1)
            { result := r.result, examined := r.examined,
              polls := { at_time := now, timeout := tmo } :: r.polls, rest := r.rest }
    else
      { result := none, examined := consumed, polls := [], rest := trace }

/-- consume_until from base_consumer.py: effective timeout defaults to the
instance's timeout_seconds, deadline = monotonic now + effective timeout,
consumed starts at 0.  The source default for max_messages is 100. -/
def consume_until (deser : String → ConsumedEvent) (pred : ConsumedEvent → Bool)
    (timeoutArg : Option ℚ) (timeout_seconds : ℚ) (max_messages : Nat)
    (now0 : ℚ) (trace : List PollStep) : ConsumeLog :=
  let effective_timeout := timeoutArg.getD timeout_seconds
  consumeUntilGo deser pred (now0 + effective_timeout) max_messages trace now0 0

/-- consume_one from base_consumer.py: one _poll, then _deserialize unless
nothing arrived. -/
def consume_one (deser : String → ConsumedEvent) (timeoutArg : Option ℚ)
    (timeout_seconds : ℚ) (polled : Option String) : Option ConsumedEvent :=
  let _effective_timeout := timeoutArg.getD timeout_seconds
  match polled with
  | none => none
  | some raw => some (deser raw)

/-- Number of poll cycles in a trace segment that deliver a message
(each one increments the loop's `consumed` counter). -/
def countSome (l : List PollStep) : Nat :=
  (l.filter (fun s => s.msg.isSome)).length

/-- Total wall-clock time consumed by a trace segment's poll calls. -/
def sumDt (l : List PollStep) : ℚ :=
  (l.map PollStep.dt).sum

/-! ## core/client/base_client.py -/

/-- PreparedRequest from base_client.py.  Headers/params/files dicts are
association lists; JSON and data payloads are opaque strings. -/
structure PreparedRequest where
  method : String
  url : String
  headers : List (String × String)
  json : Option String
  params : Option (List (String × String))
  data : Option String
  files : Option (List (String × String))
deriving DecidableEq, Repr

/-- The client's configuration fields set in BaseAPIClient.__init__
(auth and response_handler are passed separately as capabilities). -/
structure ClientCfg where
  base_url : String
  timeout : ℚ := 30
  default_headers : List (String × String) := []
  api_version : Option String := none
deriving DecidableEq, Repr

/-- The keyword arguments accepted by request/_prepare_request;
kwargs.pop("headers", {}) defaults to the empty dict. -/
structure Kwargs where
  headers : List (String × String) := []
  json : Option String := none
  params : Option (List (String × String)) := none
  data : Option String := none
  files : Option (List (String × String)) := none
deriving DecidableEq, Repr

/-- Python dict lookup on an association list (first binding wins, as
Python dicts hold unique keys). -/
def dictGet (k : String) : List (String × String) → Option String
  | [] => none
  | p :: rest => if p.1 = k then some p.2 else dictGet k rest

/-- Python `{**a, **b}`: keys of a in order, values overridden by b where
present, followed by keys of b absent from a, in b's order. -/
def dictMerge (a b : List (String × String)) : List (String × String) :=
  a.map (fun p => (p.1, (dictGet p.1 b).getD p.2)) ++
  b.filter (fun p => (dictGet p.1 a).isNone)

/-- Python str.lstrip("/"): drop leading slash characters. -/
def lstripSlash (s : String) : String :=
  ⟨s.data.dropWhile (fun c => c = '/')⟩

/-- Python str.rstrip("/"): drop trailing slash characters (used on
base_url in __init__). -/
def rstripSlash (s : String) : String :=
  ⟨(s.data.reverse.dropWhile (fun c => c = '/')).reverse⟩

/-- _prepare_request from base_client.py.  The client state is threaded
through and returned so that non-mutation of self.default_headers is part
of the embedded signature. -/
def prepare_request (c : ClientCfg) (method endpoint : String) (kw : Kwargs) :
    PreparedRequest × ClientCfg :=
  let url := match c.api_version with
    | some v => c.base_url ++ "/api/" ++ v ++ "/" ++ lstripSlash endpoint
    | none => c.base_url ++ "/" ++ lstripSlash endpoint
  ({ method := method.toUpper, url := url,
     headers := dictMerge c.default_headers kw.headers,
     json := kw.json, params := kw.params, data := kw.data, files := kw.files }, c)

/-- _authenticate from base_client.py: delegate to the auth strategy when
one is configured. -/
def authApply (authF : Option (PreparedRequest → PreparedRequest))
    (r : PreparedRequest) : PreparedRequest :=
  match authF with
  | some f => f r
  | none => r

/-- The raw transport response as _build_api_response probes it:
json_result = none models raw.json() raising; headers = none models a raw
object without a headers attribute; status_code = none models getattr
falling back to its default 0. -/
structure RawResponse where
  json_result : Option String
  headers : Option (List (String × String))
  status_code : Option Nat
deriving DecidableEq, Repr

/-- _build_api_response from base_client.py. -/
def build_api_response (raw : RawResponse) (elapsed_ms : ℚ) : APIResponse :=
  { status_code := raw.status_code.getD 0,
    json_data := raw.json_result,
    headers := raw.headers.getD [],
    elapsed_ms := elapsed_ms }

/-- The calling thread's slice of the module-level thread-local store
(_thread_local.last_request / last_response). -/
structure ClientThreadLocal where
  last_request : Option PreparedRequest := none
  last_response : Option APIResponse := none
deriving DecidableEq, Repr

/-- _handle_response from base_client.py: run the handler chain when one
is configured; the chain may raise (e.g. HTTPStatusError). -/
def handleApply (handlerF : Option (APIResponse → Except Exc APIResponse))
    (resp : APIResponse) : Except Exc APIResponse :=
  match handlerF with
  | some h => h resp
  | none => .ok resp

/-- BaseAPIClient.request: prepare, authenticate, send (the only stage
that may raise and the only one timed), build the APIResponse, run the
handler chain, then write the thread-local observation record.  sendF is
the abstract _send hook; dtSend the wall-clock duration of the send; tl
the calling thread's observation record before the call. -/
def request (c : ClientCfg) (authF : Option (PreparedRequest → PreparedRequest))
    (sendF : PreparedRequest → Except Exc RawResponse) (dtSend : ℚ)
    (handlerF : Option (APIResponse → Except Exc APIResponse))
    (method endpoint : String) (kw : Kwargs) (tl : ClientThreadLocal) :
    Except Exc APIResponse × ClientThreadLocal :=
  let prepared := authApply authF (prepare_request c method endpoint kw).1
  match sendF prepared with
  | .error e => (.error e, tl)
  | .ok raw =>
    let elapsed_ms := dtSend * 1000
    let resp := build_api_response raw elapsed_ms
    match handleApply handlerF resp with
    | .error e => (.error e, tl)
    | .ok resp2 =>
      (.ok resp2, { last_request := some prepared, last_response := some resp2 })

/-! ## core/messaging/base_producer.py -/

/-- EventEnvelope from base_producer.py; the body dict is an association
list stand-in. -/
structure EventEnvelope where
  topic : String
  key : Option String := none
  body : List (String × String) := []
  headers : List (String × String) := []
  partition_key : Option String := none
  content_type : String := "application/json"
deriving DecidableEq, Repr

/-- PublishResult from base_producer.py. -/
structure PublishResult where
  success : Bool
  topic : String
  partition : Option Int := none
  offset : Option Int := none
  elapsed_ms : ℚ := 0
  error : Option String := none
deriving DecidableEq, Repr

/-- Python truthiness of a string: non-empty. -/
def pyTruthyStr (s : String) : Bool :=
  !(s == "")

/-- Python truthiness of an optional string (self.default_topic). -/
def pyTruthyOptStr : Option String → Bool
  | none => false
  | some s => pyTruthyStr s

/-- Python dict.setdefault on an association list: insert at the end only
when the key is absent. -/
def dictSetdefault (d : List (String × String)) (k v : String) :
    List (String × String) :=
  if (dictGet k d).isSome then d else d ++ [(k, v)]

/-- _prepare_event from base_producer.py: substitute the default topic
when the event's topic is falsy and a truthy default exists, then
setdefault the timestamp header (str(time.time_ns() // 1_000_000), passed
in as tsMs) and the content-type header. -/
def prepare_event (default_topic : Option String) (tsMs : Nat)
    (ev : EventEnvelope) : EventEnvelope :=
  let ev1 :=
    if !(pyTruthyStr ev.topic) && pyTruthyOptStr default_topic then
      { topic := default_topic.getD "", key := ev.key, body := ev.body,
        headers := ev.headers, partition_key := ev.partition_key,
        content_type := ev.content_type }
    else ev
  let headers :=
    dictSetdefault (dictSetdefault ev1.headers "timestamp" (toString tsMs))
      "content-type" ev1.content_type
  { topic := ev1.topic, key := ev1.key, body := ev1.body, headers := headers,
    partition_key := ev1.partition_key, content_type := ev1.content_type }

/-- The calling thread's slice of the producer module's thread-local
store (_thread_local.last_event / last_publish_result). -/
structure ProducerThreadLocal where
  last_event : Option EventEnvelope := none
  last_publish_result : Option PublishResult := none
deriving DecidableEq, Repr

/-- BaseProducer.publish: prepare, authenticate (identity in the base
class), send with the monotonic clock read immediately before and after,
rebuild the PublishResult with the measured elapsed_ms, run _handle_result
(identity in the base class and in both shipped subclasses), and write the
thread-local record.  sendF gives the transport result and the wall-clock
duration of the send; dtPrepare/dtAuth are the durations of the stages
preceding the measured section; now0 the clock at entry. -/
def publish (default_topic : Option String) (tsMs : Nat)
    (sendF : EventEnvelope → PublishResult × ℚ) (ev : EventEnvelope)
    (now0 dtPrepare dtAuth : ℚ) (tl : ProducerThreadLocal) :
    PublishResult × ProducerThreadLocal :=
  let ev2 := prepare_event default_topic tsMs ev
  let start := now0 + dtPrepare + dtAuth
  let sres := sendF ev2
  let finish := start + sres.2
  let elapsed_ms := (finish - start) * 1000
  let result : PublishResult :=
    { success := sres.1.success, topic := sres.1.topic,
      partition := sres.1.partition, offset := sres.1.offset,
      elapsed_ms := elapsed_ms, error := sres.1.error }
  (result, { last_event := some ev2, last_publish_result := some result })

/-! ## core/response_handler.py — AllureAttachmentHandler -/

/-- AllureAttachmentHandler._process: the try block imports allure and,
when the response has a JSON body, attaches it to the report; the except
clause catches ImportError only, and `return response` runs afterwards.
allureAvailable = false models `import allure` raising ImportError;
attachF models allure.attach on the serialized body, which may raise. -/
def allure_attach_process (allureAvailable : Bool)
    (attachF : String → Except Exc Unit) (resp : APIResponse) :
    Except Exc APIResponse :=
  if allureAvailable then
    match resp.json_data with
    | none => .ok resp
    | some body =>
      match attachF body with
      | .ok _ => .ok resp
      | .error e => if e.ty = "ImportError" then .ok resp else .error e
  else
    .ok resp

/-! ## core/auth/oauth2_auth.py -/

/-- The mutable state of OAuth2Auth guarded by self._lock: the cached
token and its monotonic expiry instant. -/
structure AuthState where
  token : Option String
  expires_at : ℚ
deriving DecidableEq, Repr

/-- _get_token with _refresh_token inlined, as one atomic step: the whole
body runs under self._lock, so concurrent callers are serialized and each
observes the state left by the previous one.  freshTok / expiresIn model
the token endpoint's successful response (access_token, expires_in); now
is the caller's monotonic clock inside the critical section.  Returns the
token handed to the caller, the post-state, and whether this caller
performed the refresh. -/
def getToken (freshTok : String) (expiresIn : ℚ) (now : ℚ) (s : AuthState) :
    String × AuthState × Bool :=
  if s.token = none ∨ s.expires_at ≤ now then
    let s2 : AuthState := { token := some freshTok,
                            expires_at := now + max (expiresIn - 60) 0 }
    (freshTok, s2, true)
  else
    ((s.token).getD "", s, false)

/-- N callers serialized by the lock, caller i entering the critical
section at clock value ts[i]: the tokens they receive, the final state,
and how many of them performed a refresh. -/
def runCallers (freshTok : String) (expiresIn : ℚ) :
    List ℚ → AuthState → List String × AuthState × Nat
  | [], s => ([], s, 0)
  | t :: ts, s =>
    let step := getToken freshTok expiresIn t s
    let rest := runCallers freshTok expiresIn ts step.2.1
    (step.1 :: rest.1, rest.2.1, rest.2.2 + (if step.2.2 then 1 else 0))

/-! ## Concrete inputs used by witness theorems -/

/-- A transient exception instance. -/
def c1Exc : Exc := { ty := "ConnectionError", msg := "boom" }

/-- A callable that raises c1Exc on every invocation. -/
def c1F : Nat → CallOutcome := fun _ => .raised c1Exc

/-- The per-attempt exception family matching c1F. -/
def c1E : Nat → Exc := fun _ => c1Exc

/-- A 503 response (retryable by default). -/
def resp503 : APIResponse :=
  { status_code := 503, json_data := none, headers := [], elapsed_ms := 0 }

/-- A 404 response (not retryable by default). -/
def resp404 : APIResponse :=
  { status_code := 404, json_data := none, headers := [], elapsed_ms := 0 }

/-- A callable that returns 503 on every invocation. -/
def c2FA : Nat → CallOutcome := fun _ => .ret (.api resp503)

/-- A callable that returns 404 on every invocation. -/
def c2FB : Nat → CallOutcome := fun _ => .ret (.api resp404)

/-- A callable that raises a TimeoutError on every invocation. -/
def c3F : Nat → CallOutcome := fun _ => .raised { ty := "TimeoutError", msg := "t" }

/-- Deserializer used by the consumer witnesses: the raw payload becomes
the event body. -/
def cDeser : String → ConsumedEvent := fun s => { topic := "t", body := some s }

/-- Predicate used by the consumer witnesses: the event body is "b". -/
def cPredB : ConsumedEvent → Bool := fun ev => ev.body == some "b"

/-- Poll cycles preceding the match in the C4 witness: a published body
"a" (does not match) and one empty poll. -/
def c4Pre : List PollStep :=
  [{ dt := 0, msg := some "a" }, { dt := 0, msg := none }]

/-- Poll cycles after the match in the C4 witness: a published body "c". -/
def c4Post : List PollStep := [{ dt := 0, msg := some "c" }]

/-- A trace none of whose messages matches cPredB. -/
def c5Trace : List PollStep :=
  [{ dt := 0, msg := some "a" }, { dt := 1, msg := none }]

/-- A client configuration for the request-lifecycle witness. -/
def c6Cfg : ClientCfg := { base_url := "https://api.example.com" }

/-- A transport hook that always raises ConnectionError. -/
def c6SendF : PreparedRequest → Except Exc RawResponse :=
  fun _ => .error { ty := "ConnectionError", msg := "refused" }

/-- A pre-existing thread-local observation record. -/
def c6TL : ClientThreadLocal :=
  { last_request := none,
    last_response := some
      { status_code := 200, json_data := none, headers := [], elapsed_ms := 1 } }

/-- A response carrying a JSON body, fed to the attachment handler. -/
def c8Resp : APIResponse :=
  { status_code := 200, json_data := some "x", headers := [], elapsed_ms := 0 }

/-- A reporting sink that fails with a non-ImportError exception. -/
def c8SinkFail : String → Except Exc Unit :=
  fun _ => .error { ty := "RuntimeError", msg := "sink down" }

/-- A client configuration with a default header shadowed per call. -/
def c9Cfg : ClientCfg :=
  { base_url := "https://api.example.com",
    default_headers := [("Accept", "application/json"), ("X-Trace", "default")],
    api_version := some "v2" }

/-- Per-call keyword arguments overriding the X-Trace header. -/
def c9Kwargs : Kwargs := { headers := [("X-Trace", "call")] }

/-!
# Theorems
-/

/-! ## Retry controller (core/retry.py) -/

/-- The async loop body is the same function as the sync one; the two
wrappers differ only in which sleeping primitive performs the recorded
wait. -/
theorem asyncRetryGo_eq_retryGo (cfg : RetryConfig) (f : Nat → CallOutcome) :
    ∀ fuel attempt lastExc,
      asyncRetryGo cfg f attempt fuel lastExc = retryGo cfg f attempt fuel lastExc := by
  intro fuel
  induction fuel with
  | zero => intro attempt lastExc; rfl
  | succ n ih =>
    intro attempt lastExc
    simp only [asyncRetryGo, retryGo]
    cases f attempt with
    | ret v => simp [ih]
    | raised e => simp [ih]

/-- When every invocation raises a retryable exception, the loop uses all
its fuel and raises the final attempt's exception. -/
theorem retryGo_allRaised (cfg : RetryConfig) (f : Nat → CallOutcome) (e : Nat → Exc)
    (hf : ∀ k, f k = .raised (e k))
    (hr : ∀ k, excRetryable cfg (e k) = true) :
    ∀ fuel attempt lastExc, attempt + fuel = cfg.max_attempts + 1 → 1 ≤ fuel →
      (retryGo cfg f attempt fuel lastExc).out = .exc (e cfg.max_attempts) ∧
      (retryGo cfg f attempt fuel lastExc).calls = fuel := by
  intro fuel
  induction fuel with
  | zero => intro attempt lastExc _ h1; omega
  | succ n ih =>
    intro attempt lastExc hsum _h1
    by_cases hlt : attempt < cfg.max_attempts
    · have hn : 1 ≤ n := by omega
      have hrec := ih (attempt + 1) (some (e attempt)) (by omega) hn
      simp only [retryGo, hf attempt, hr attempt, if_pos hlt, if_true]
      exact ⟨hrec.1, by rw [hrec.2]⟩
    · have ha : attempt = cfg.max_attempts := by omega
      subst ha
      simp [retryGo, hf, hr]
      omega

/-- C1: for every retry configuration with max_attempts = n ≥ 1 and a
wrapped callable that raises a configured transient exception type on
every invocation, both the synchronous and the asynchronous wrapper
invoke the callable exactly n times, and the exception raised by the
n-th invocation is the one propagated, unwrapped. -/
theorem C1_retry_exhaustion_raises_nth (cfg : RetryConfig) (f : Nat → CallOutcome)
    (e : Nat → Exc) (hn : 1 ≤ cfg.max_attempts)
    (hf : ∀ k, f k = .raised (e k))
    (hr : ∀ k, cfg.retryable_exceptions.contains (e k).ty = true) :
    (sync_wrapper cfg f).out = .exc (e cfg.max_attempts) ∧
    (sync_wrapper cfg f).calls = cfg.max_attempts ∧
    (async_wrapper cfg f).out = .exc (e cfg.max_attempts) ∧
    (async_wrapper cfg f).calls = cfg.max_attempts := by
  have h := retryGo_allRaised cfg f e hf hr cfg.max_attempts 1 none (by omega) hn
  have ha : async_wrapper cfg f = sync_wrapper cfg f := by
    unfold async_wrapper sync_wrapper
    rw [asyncRetryGo_eq_retryGo]
  simp only [sync_wrapper] at *
  exact ⟨h.1, h.2, by rw [ha]; exact h.1, by rw [ha]; exact h.2⟩

/-- Witness for C1: the default configuration (3 attempts) with a callable
that always raises ConnectionError. -/
theorem C1_retry_exhaustion_raises_nth_witness :
    (sync_wrapper {} c1F).out = .exc (c1E ({} : RetryConfig).max_attempts) ∧
    (sync_wrapper {} c1F).calls = ({} : RetryConfig).max_attempts ∧
    (async_wrapper {} c1F).out = .exc (c1E ({} : RetryConfig).max_attempts) ∧
    (async_wrapper {} c1F).calls = ({} : RetryConfig).max_attempts :=
  C1_retry_exhaustion_raises_nth {} c1F c1E (by decide) (fun _ => rfl)
    (fun _ => rfl)

/-- When every invocation returns an APIResponse with a retryable status,
the loop uses all its fuel and returns the final attempt's response. -/
theorem retryGo_allRetryStatus (cfg : RetryConfig) (f : Nat → CallOutcome)
    (resp : Nat → APIResponse)
    (hf : ∀ k, f k = .ret (.api (resp k)))
    (hs : ∀ k, cfg.retryable_statuses.contains (resp k).status_code = true) :
    ∀ fuel attempt lastExc, attempt + fuel = cfg.max_attempts + 1 → 1 ≤ fuel →
      (retryGo cfg f attempt fuel lastExc).out = .ok (.api (resp cfg.max_attempts)) ∧
      (retryGo cfg f attempt fuel lastExc).calls = fuel := by
  intro fuel
  induction fuel with
  | zero => intro attempt lastExc _ h1; omega
  | succ n ih =>
    intro attempt lastExc hsum _h1
    have hsr : statusRetryable cfg (.api (resp attempt)) = true := hs attempt
    by_cases hlt : attempt < cfg.max_attempts
    · have hn : 1 ≤ n := by omega
      have hrec := ih (attempt + 1) lastExc (by omega) hn
      simp only [retryGo, hf attempt, hsr, decide_eq_true hlt, Bool.and_self,
        if_true]
      exact ⟨hrec.1, by rw [hrec.2]⟩
    · have ha : attempt = cfg.max_attempts := by omega
      subst ha
      simp [retryGo, hf]
      omega

/-- C2: a response whose status is in the configured retryable set
(default 500, 502, 503, 504) is re-attempted, but only on attempts
1..n-1 — the n-th attempt's response is returned as-is regardless of its
status — while a response whose status is outside the set is returned
immediately after a single invocation with no wait. -/
theorem C2_status_classification (cfg : RetryConfig) (f : Nat → CallOutcome)
    (resp : Nat → APIResponse) (hn : 1 ≤ cfg.max_attempts)
    (hf : ∀ k, f k = .ret (.api (resp k))) :
    ((∀ k, cfg.retryable_statuses.contains (resp k).status_code = true) →
      (sync_wrapper cfg f).out = .ok (.api (resp cfg.max_attempts)) ∧
      (sync_wrapper cfg f).calls = cfg.max_attempts) ∧
    (cfg.retryable_statuses.contains (resp 1).status_code = false →
      (sync_wrapper cfg f).out = .ok (.api (resp 1)) ∧
      (sync_wrapper cfg f).calls = 1 ∧
      (sync_wrapper cfg f).waits = []) ∧
    ({} : RetryConfig).retryable_statuses = [500, 502, 503, 504] := by
  refine ⟨?_, ?_, rfl⟩
  · intro hs
    exact retryGo_allRetryStatus cfg f resp hf hs cfg.max_attempts 1 none
      (by omega) hn
  · intro hns
    obtain ⟨m, hm⟩ := Nat.exists_eq_succ_of_ne_zero (Nat.one_le_iff_ne_zero.mp hn)
    have hsr : statusRetryable cfg (.api (resp 1)) = false := hns
    simp only [sync_wrapper, hm, retryGo, hf 1, hsr, Bool.false_and,
      Bool.false_eq_true, if_false]
    exact ⟨trivial, trivial, trivial⟩

/-- Witness for C2: with the default configuration, a callable always
returning 503 is invoked 3 times and its 3rd response is returned; a
callable returning 404 is invoked once, returns immediately, no wait. -/
theorem C2_status_classification_witness :
    ((sync_wrapper {} c2FA).out = .ok (.api resp503) ∧
     (sync_wrapper {} c2FA).calls = 3) ∧
    ((sync_wrapper {} c2FB).out = .ok (.api resp404) ∧
     (sync_wrapper {} c2FB).calls = 1 ∧
     (sync_wrapper {} c2FB).waits = []) :=
  ⟨(C2_status_classification {} c2FA (fun _ => resp503) (by decide)
      (fun _ => rfl)).1 (fun _ => rfl),
   ((C2_status_classification {} c2FB (fun _ => resp404) (by decide)
      (fun _ => rfl)).2.1 (by rfl))⟩

/-- Every wait recorded by the loop, in order, is
backoff_factor ^ (firstAttempt - 1 + index): the sleep after attempt k
uses exponent k - 1. -/
theorem retryGo_waits_geometric (cfg : RetryConfig) (f : Nat → CallOutcome) :
    ∀ fuel attempt lastExc, 1 ≤ attempt →
      ∀ i, i < (retryGo cfg f attempt fuel lastExc).waits.length →
        (retryGo cfg f attempt fuel lastExc).waits.getD i 0 =
          cfg.backoff_factor ^ (attempt - 1 + i) := by
  intro fuel
  induction fuel with
  | zero => intro attempt lastExc _ i hi; simp [retryGo] at hi
  | succ n ih =>
    intro attempt lastExc h1 i hi
    have hexp : ∀ j : Nat, attempt + 1 - 1 + j = attempt - 1 + (j + 1) := by omega
    cases hfa : f attempt with
    | ret v =>
      by_cases hc : (statusRetryable cfg v && decide (attempt < cfg.max_attempts)) = true
      · simp only [retryGo, hfa, hc, if_true] at hi ⊢
        cases i with
        | zero => simp
        | succ j =>
          simp only [List.length_cons, Nat.succ_lt_succ_iff] at hi
          simpa [← hexp j] using ih (attempt + 1) lastExc (by omega) j hi
      · simp only [retryGo, hfa, hc, if_false] at hi
        simp at hi
    | raised e =>
      by_cases he : excRetryable cfg e = true
      · by_cases hlt : attempt < cfg.max_attempts
        · simp only [retryGo, hfa, he, if_true, if_pos hlt] at hi ⊢
          cases i with
          | zero => simp
          | succ j =>
            simp only [List.length_cons, Nat.succ_lt_succ_iff] at hi
            simpa [← hexp j] using ih (attempt + 1) (some e) (by omega) j hi
        · simp only [retryGo, hfa, he, if_true, if_neg hlt] at hi
          simp at hi
      · simp only [retryGo, hfa, if_neg he] at hi
        simp at hi

/-- Under the top-level attempt/fuel alignment, each wait sits strictly
between two invocations: the number of invocations is one more than the
number of waits. -/
theorem retryGo_calls_eq_waits_succ (cfg : RetryConfig) (f : Nat → CallOutcome) :
    ∀ fuel attempt lastExc, attempt + fuel = cfg.max_attempts + 1 → 1 ≤ fuel →
      (retryGo cfg f attempt fuel lastExc).calls =
        (retryGo cfg f attempt fuel lastExc).waits.length + 1 := by
  intro fuel
  induction fuel with
  | zero => intro attempt lastExc _ h1; omega
  | succ n ih =>
    intro attempt lastExc hsum _h1
    cases hfa : f attempt with
    | ret v =>
      by_cases hc : (statusRetryable cfg v && decide (attempt < cfg.max_attempts)) = true
      · have hlt : attempt < cfg.max_attempts := by
          have := (Bool.and_eq_true _ _).mp hc
          exact of_decide_eq_true this.2
        have hrec := ih (attempt + 1) lastExc (by omega) (by omega)
        simp only [retryGo, hfa, hc, if_true, List.length_cons]
        omega
      · simp [retryGo, hfa, hc]
    | raised e =>
      by_cases he : excRetryable cfg e = true
      · by_cases hlt : attempt < cfg.max_attempts
        · have hrec := ih (attempt + 1) (some e) (by omega) (by omega)
          simp only [retryGo, hfa, he, if_true, if_pos hlt, List.length_cons]
          omega
        · simp [retryGo, hfa, he, hlt]
      · simp [retryGo, hfa, he]

/-- C3: in every execution of the wrapped call (status branch and
exception branch alike), the wait performed between attempt k-1 and
attempt k (k ≥ 2) is backoff_factor ^ (k - 2) seconds, and no wait
precedes attempt 1 (waits strictly interleave the calls: there are
calls - 1 of them, the i-th coming after the i-th call). -/
theorem C3_exponential_backoff (cfg : RetryConfig) (f : Nat → CallOutcome)
    (hn : 1 ≤ cfg.max_attempts) :
    ((sync_wrapper cfg f).calls = (sync_wrapper cfg f).waits.length + 1) ∧
    (∀ k, 2 ≤ k → k ≤ (sync_wrapper cfg f).calls →
      (sync_wrapper cfg f).waits.getD (k - 2) 0 = cfg.backoff_factor ^ (k - 2)) ∧
    ((async_wrapper cfg f).calls = (async_wrapper cfg f).waits.length + 1) ∧
    (∀ k, 2 ≤ k → k ≤ (async_wrapper cfg f).calls →
      (async_wrapper cfg f).waits.getD (k - 2) 0 = cfg.backoff_factor ^ (k - 2)) := by
  have ha : async_wrapper cfg f = sync_wrapper cfg f := by
    unfold async_wrapper sync_wrapper
    rw [asyncRetryGo_eq_retryGo]
  have hcw : (sync_wrapper cfg f).calls = (sync_wrapper cfg f).waits.length + 1 :=
    retryGo_calls_eq_waits_succ cfg f cfg.max_attempts 1 none (by omega) hn
  have hgeo : ∀ k, 2 ≤ k → k ≤ (sync_wrapper cfg f).calls →
      (sync_wrapper cfg f).waits.getD (k - 2) 0 = cfg.backoff_factor ^ (k - 2) := by
    intro k h2 hk
    have hlen : k - 2 < (sync_wrapper cfg f).waits.length := by omega
    have := retryGo_waits_geometric cfg f cfg.max_attempts 1 none (by omega)
      (k - 2) hlen
    simpa using this
  exact ⟨hcw, hgeo, by rw [ha]; exact hcw, by rw [ha]; exact hgeo⟩

/-- Witness for C3: default configuration, callable always raising
TimeoutError: 3 calls, and the wait before attempt 3 is 2^1 = 2. -/
theorem C3_exponential_backoff_witness :
    (sync_wrapper {} c3F).calls = (sync_wrapper {} c3F).waits.length + 1 ∧
    (2 ≤ 3 ∧ 3 ≤ (sync_wrapper {} c3F).calls ∧
      (sync_wrapper {} c3F).waits.getD 1 0 = (2 : ℚ) ^ 1) :=
  ⟨(C3_exponential_backoff {} c3F (by decide)).1,
   by decide, by decide,
   (C3_exponential_backoff {} c3F (by decide)).2.1 3 (by decide) (by decide)⟩

/-! ## Poll-until-predicate loop (core/messaging/base_consumer.py) -/

theorem countSome_cons (s : PollStep) (l : List PollStep) :
    countSome (s :: l) = (if s.msg.isSome then 1 else 0) + countSome l := by
  rcases h : s.msg with _ | x
  · simp [countSome, List.filter_cons, h]
  · simp [countSome, List.filter_cons, h, Nat.add_comm]

theorem sumDt_cons (s : PollStep) (l : List PollStep) :
    sumDt (s :: l) = s.dt + sumDt l := by
  simp [sumDt]

theorem sumDt_nonneg (l : List PollStep) (h : ∀ s ∈ l, 0 ≤ s.dt) :
    0 ≤ sumDt l := by
  induction l with
  | nil => simp [sumDt]
  | cons s tl ih =>
    rw [sumDt_cons]
    have h1 := h s (List.mem_cons_self _ _)
    have h2 := ih (fun x hx => h x (List.mem_cons_of_mem _ hx))
    linarith

/-- A run over a trace with no matching message returns no-result. -/
theorem consumeUntilGo_nomatch
    (deser : String → ConsumedEvent) (pred : ConsumedEvent → Bool)
    (deadline : ℚ) (mm : Nat) :
    ∀ trace now consumed,
      (∀ s ∈ trace, ∀ m, s.msg = some m → pred (deser m) = false) →
      (consumeUntilGo deser pred deadline mm trace now consumed).result = none := by
  intro trace
  induction trace with
  | nil =>
    intro now consumed _
    simp only [consumeUntilGo]
    split
    · split <;> rfl
    · rfl
  | cons step tr ih =>
    intro now consumed hnm
    have hstep : ∀ mx, step.msg = some mx → pred (deser mx) = false :=
      fun mx hmx => hnm step (List.mem_cons_self _ _) mx hmx
    have htr : ∀ s ∈ tr, ∀ mx, s.msg = some mx → pred (deser mx) = false :=
      fun s hs mx hmx => hnm s (List.mem_cons_of_mem _ hs) mx hmx
    simp only [consumeUntilGo]
    split
    · split
      · rfl
      · cases hmsg : step.msg with
        | none => simpa using ih (now + step.dt) consumed htr
        | some mx =>
          have hp := hstep mx hmsg
          simp only [hp, Bool.false_eq_true, if_false]
          simpa using ih (now + step.dt) (consumed + 1) htr
    · rfl

/-- The examined-event counter never passes max counter/budget. -/
theorem consumeUntilGo_examined_le
    (deser : String → ConsumedEvent) (pred : ConsumedEvent → Bool)
    (deadline : ℚ) (mm : Nat) :
    ∀ trace now consumed,
      (consumeUntilGo deser pred deadline mm trace now consumed).examined
        ≤ max consumed mm := by
  intro trace
  induction trace with
  | nil =>
    intro now consumed
    simp only [consumeUntilGo]
    split
    · split <;> exact le_max_left _ _
    · exact le_max_left _ _
  | cons step tr ih =>
    intro now consumed
    simp only [consumeUntilGo]
    split
    next hlt =>
      split
      · exact le_max_left _ _
      · cases hmsg : step.msg with
        | none =>
          have := ih (now + step.dt) consumed
          simpa using this
        | some mx =>
          by_cases hp : pred (deser mx) = true
          · simp only [hp, if_true]
            exact le_trans (by omega) (le_max_right _ _)
          · simp only [eq_false_of_ne_true hp, Bool.false_eq_true, if_false]
            have hrec := ih (now + step.dt) (consumed + 1)
            have hmax : max (consumed + 1) mm = mm := Nat.max_eq_right (by omega)
            rw [hmax] at hrec
            exact le_trans (by simpa using hrec) (le_max_right _ _)
    next => exact le_max_left _ _

/-- Every _poll call the loop issues is made strictly before the deadline
and is passed the timeout min(remaining, 1.0). -/
theorem consumeUntilGo_poll_caps
    (deser : String → ConsumedEvent) (pred : ConsumedEvent → Bool)
    (deadline : ℚ) (mm : Nat) :
    ∀ trace now consumed,
      ∀ pc ∈ (consumeUntilGo deser pred deadline mm trace now consumed).polls,
        pc.timeout = min (deadline - pc.at_time) 1 ∧ 0 < deadline - pc.at_time := by
  intro trace
  induction trace with
  | nil =>
    intro now consumed pc hpc
    simp only [consumeUntilGo] at hpc
    split at hpc
    · split at hpc <;> simp at hpc
    · simp at hpc
  | cons step tr ih =>
    intro now consumed pc hpc
    simp only [consumeUntilGo] at hpc
    split at hpc
    next hlt =>
      split at hpc
      · simp at hpc
      next hdl =>
        have hpos : 0 < deadline - now := by linarith [not_le.mp hdl]
        cases hmsg : step.msg with
        | none =>
          rw [hmsg] at hpc
          simp only [List.mem_cons] at hpc
          rcases hpc with h | h
          · subst h; exact ⟨rfl, hpos⟩
          · exact ih (now + step.dt) consumed pc h
        | some mx =>
          rw [hmsg] at hpc
          by_cases hp : pred (deser mx) = true
          · simp only [hp, if_true, List.mem_cons, List.not_mem_nil, or_false]
              at hpc
            subst hpc
            exact ⟨rfl, hpos⟩
          · simp only [eq_false_of_ne_true hp, Bool.false_eq_true, if_false,
              List.mem_cons] at hpc
            rcases hpc with h | h
            · subst h; exact ⟨rfl, hpos⟩
            · exact ih (now + step.dt) (consumed + 1) pc h
    next => simp at hpc

/-- Reaching the first matching message: everything before it is either
an empty poll cycle or a non-matching (discarded) event, and the run
stops there, leaving the rest of the stream unconsumed. -/
theorem consumeUntilGo_first_match
    (deser : String → ConsumedEvent) (pred : ConsumedEvent → Bool)
    (deadline : ℚ) (mm : Nat) (dt0 : ℚ) (m : String) (post : List PollStep)
    (hm : pred (deser m) = true) :
    ∀ pre now consumed,
      (∀ s ∈ pre, ∀ x, s.msg = some x → pred (deser x) = false) →
      (∀ s ∈ pre, 0 ≤ s.dt) →
      consumed + countSome pre < mm →
      now + sumDt pre < deadline →
      (consumeUntilGo deser pred deadline mm
          (pre ++ { dt := dt0, msg := some m } :: post) now consumed).result
          = some (deser m) ∧
      (consumeUntilGo deser pred deadline mm
          (pre ++ { dt := dt0, msg := some m } :: post) now consumed).examined
          = consumed + countSome pre + 1 ∧
      (consumeUntilGo deser pred deadline mm
          (pre ++ { dt := dt0, msg := some m } :: post) now consumed).rest
          = post := by
  intro pre
  induction pre with
  | nil =>
    intro now consumed _ _ hcount htime
    have hlt : consumed < mm := by simpa [countSome] using hcount
    have hdl : ¬ deadline - now ≤ 0 := by
      simp only [sumDt, List.map_nil, List.sum_nil, add_zero] at htime
      linarith
    simp only [List.nil_append, consumeUntilGo, if_pos hlt, if_neg hdl, hm,
      if_true]
    simp [countSome]
  | cons s pre ih =>
    intro now consumed hpre hdt hcount htime
    have hs1 : ∀ x, s.msg = some x → pred (deser x) = false :=
      fun x hx => hpre s (List.mem_cons_self _ _) x hx
    have hpre' : ∀ t ∈ pre, ∀ x, t.msg = some x → pred (deser x) = false :=
      fun t ht x hx => hpre t (List.mem_cons_of_mem _ ht) x hx
    have hdt' : ∀ t ∈ pre, 0 ≤ t.dt :=
      fun t ht => hdt t (List.mem_cons_of_mem _ ht)
    have hsdt : 0 ≤ s.dt := hdt s (List.mem_cons_self _ _)
    have hsum' : 0 ≤ sumDt pre := sumDt_nonneg pre hdt'
    rw [sumDt_cons] at htime
    cases hmsg : s.msg with
    | none =>
      have hcount1 : consumed + countSome pre < mm := by
        rw [countSome_cons, hmsg] at hcount
        simpa using hcount
      have hlt : consumed < mm := by omega
      have hdl : ¬ deadline - now ≤ 0 := by linarith
      have hrec := ih (now + s.dt) consumed hpre' hdt' hcount1 (by linarith)
      simp only [List.cons_append, consumeUntilGo, if_pos hlt, if_neg hdl, hmsg]
      refine ⟨by simpa using hrec.1, ?_, by simpa using hrec.2.2⟩
      rw [countSome_cons, hmsg]
      simpa using hrec.2.1
    | some x =>
      have hcount2 : (consumed + 1) + countSome pre < mm := by
        rw [countSome_cons, hmsg] at hcount
        simp at hcount
        omega
      have hlt : consumed < mm := by omega
      have hdl : ¬ deadline - now ≤ 0 := by linarith
      have hp := hs1 x hmsg
      have hrec := ih (now + s.dt) (consumed + 1) hpre' hdt' hcount2 (by linarith)
      simp only [List.cons_append, consumeUntilGo, if_pos hlt, if_neg hdl, hmsg,
        hp, Bool.false_eq_true, if_false]
      refine ⟨by simpa using hrec.1, ?_, by simpa using hrec.2.2⟩
      rw [countSome_cons, hmsg]
      have h2 := hrec.2.1
      simp only [Option.isSome_some, if_true]
      simp only [List.append_eq] at h2 ⊢
      omega

/-- C4: consume_until returns the first deserialized event, in poll
order, satisfying the predicate; the events examined before the match
are discarded (each is counted once in the examined counter and none is
buffered), and nothing after the match is consumed — the unconsumed
stream is exactly the suffix following the match.  Hypotheses: the
prefix holds no match, its poll cycles take nonnegative time, and the
message budget and deadline suffice to reach the match. -/
theorem C4_consume_until_first_match
    (deser : String → ConsumedEvent) (pred : ConsumedEvent → Bool)
    (timeoutArg : Option ℚ) (timeout_seconds : ℚ) (mm : Nat) (now0 : ℚ)
    (pre : List PollStep) (dt0 : ℚ) (m : String) (post : List PollStep)
    (hpre : ∀ s ∈ pre, ∀ x, s.msg = some x → pred (deser x) = false)
    (hdt : ∀ s ∈ pre, 0 ≤ s.dt)
    (hm : pred (deser m) = true)
    (hcount : countSome pre < mm)
    (htime : sumDt pre < timeoutArg.getD timeout_seconds) :
    (consume_until deser pred timeoutArg timeout_seconds mm now0
        (pre ++ { dt := dt0, msg := some m } :: post)).result = some (deser m) ∧
    (consume_until deser pred timeoutArg timeout_seconds mm now0
        (pre ++ { dt := dt0, msg := some m } :: post)).examined
      = countSome pre + 1 ∧
    (consume_until deser pred timeoutArg timeout_seconds mm now0
        (pre ++ { dt := dt0, msg := some m } :: post)).rest = post := by
  have h := consumeUntilGo_first_match deser pred
    (now0 + timeoutArg.getD timeout_seconds) mm dt0 m post hm pre now0 0
    hpre hdt (by omega) (by linarith)
  simpa [consume_until] using h

/-- Witness for C4: stream a, (empty poll), b, c with predicate
body == "b": the event for b is returned, two events were examined, and
c is left unconsumed. -/
theorem C4_consume_until_first_match_witness :
    (consume_until cDeser cPredB none 30 100 0
        (c4Pre ++ { dt := 0, msg := some "b" } :: c4Post)).result
      = some (cDeser "b") ∧
    (consume_until cDeser cPredB none 30 100 0
        (c4Pre ++ { dt := 0, msg := some "b" } :: c4Post)).examined
      = countSome c4Pre + 1 ∧
    (consume_until cDeser cPredB none 30 100 0
        (c4Pre ++ { dt := 0, msg := some "b" } :: c4Post)).rest = c4Post :=
  C4_consume_until_first_match cDeser cPredB none 30 100 0 c4Pre 0 "b" c4Post
    (by
      intro s hs x hx
      simp only [c4Pre, List.mem_cons, List.not_mem_nil, or_false] at hs
      rcases hs with h | h <;> subst h <;> simp_all [cDeser, cPredB] <;>
        (subst hx; decide))
    (by
      intro s hs
      simp only [c4Pre, List.mem_cons, List.not_mem_nil, or_false] at hs
      rcases hs with h | h <;> subst h <;> norm_num)
    (by decide) (by decide) (by norm_num [c4Pre, sumDt])

/-- C5: with a predicate that never matches the delivered stream,
consume_until returns no-result; it never examines more than
max_messages events; every individual poll is issued strictly before the
deadline now0 + timeout with its wait capped at min(remaining, 1.0); and
if the timeout is already non-positive on entry no poll is issued at
all. -/
theorem C5_consume_until_deadline_budget
    (deser : String → ConsumedEvent) (pred : ConsumedEvent → Bool)
    (timeoutArg : Option ℚ) (timeout_seconds : ℚ) (mm : Nat) (now0 : ℚ)
    (trace : List PollStep)
    (hnm : ∀ s ∈ trace, ∀ m, s.msg = some m → pred (deser m) = false) :
    (consume_until deser pred timeoutArg timeout_seconds mm now0 trace).result
      = none ∧
    (consume_until deser pred timeoutArg timeout_seconds mm now0 trace).examined
      ≤ mm ∧
    (∀ pc ∈ (consume_until deser pred timeoutArg timeout_seconds mm now0
        trace).polls,
      pc.timeout = min ((now0 + timeoutArg.getD timeout_seconds) - pc.at_time) 1 ∧
      0 < (now0 + timeoutArg.getD timeout_seconds) - pc.at_time) ∧
    (timeoutArg.getD timeout_seconds ≤ 0 →
      (consume_until deser pred timeoutArg timeout_seconds mm now0 trace).polls
        = []) := by
  refine ⟨?_, ?_, ?_, ?_⟩
  · simpa [consume_until] using
      consumeUntilGo_nomatch deser pred (now0 + timeoutArg.getD timeout_seconds)
        mm trace now0 0 hnm
  · have h := consumeUntilGo_examined_le deser pred
      (now0 + timeoutArg.getD timeout_seconds) mm trace now0 0
    simpa [consume_until] using h
  · intro pc hpc
    exact consumeUntilGo_poll_caps deser pred
      (now0 + timeoutArg.getD timeout_seconds) mm trace now0 0 pc
      (by simpa [consume_until] using hpc)
  · intro h0
    have hdl : (now0 + timeoutArg.getD timeout_seconds) - now0 ≤ 0 := by linarith
    cases trace with
    | nil =>
      by_cases hmm0 : 0 < mm
      · simp [consume_until, consumeUntilGo, hmm0, hdl, h0]
      · simp [consume_until, consumeUntilGo, hmm0, h0]
    | cons s tr =>
      by_cases hmm0 : 0 < mm
      · simp [consume_until, consumeUntilGo, hmm0, hdl, h0]
      · simp [consume_until, consumeUntilGo, hmm0, h0]

/-- Witness for C5: a stream of a and an empty poll against predicate
body == "b": no result, and at most 100 events examined. -/
theorem C5_consume_until_deadline_budget_witness :
    (consume_until cDeser cPredB none 30 100 0 c5Trace).result = none ∧
    (consume_until cDeser cPredB none 30 100 0 c5Trace).examined ≤ 100 :=
  ⟨(C5_consume_until_deadline_budget cDeser cPredB none 30 100 0 c5Trace
      (by
        intro s hs x hx
        simp only [c5Trace, List.mem_cons, List.not_mem_nil, or_false] at hs
        rcases hs with h | h <;> subst h <;> simp_all [cDeser, cPredB] <;>
          (subst hx; decide))).1,
   (C5_consume_until_deadline_budget cDeser cPredB none 30 100 0 c5Trace
      (by
        intro s hs x hx
        simp only [c5Trace, List.mem_cons, List.not_mem_nil, or_false] at hs
        rcases hs with h | h <;> subst h <;> simp_all [cDeser, cPredB] <;>
          (subst hx; decide))).2.1⟩

/-! ## HTTP client lifecycle (core/client/base_client.py) -/

/-- C6: when the transport-send stage raises, the exception propagates
unchanged to the caller and neither the response-handler chain nor the
thread-local observation write runs — the calling thread's
last-request/last-response record after the call is exactly what it was
before. -/
theorem C6_send_failure_preserves_observation (c : ClientCfg)
    (authF : Option (PreparedRequest → PreparedRequest))
    (sendF : PreparedRequest → Except Exc RawResponse) (dtSend : ℚ)
    (handlerF : Option (APIResponse → Except Exc APIResponse))
    (method endpoint : String) (kw : Kwargs) (tl : ClientThreadLocal) (e : Exc)
    (hsend : sendF (authApply authF (prepare_request c method endpoint kw).1)
      = .error e) :
    request c authF sendF dtSend handlerF method endpoint kw tl = (.error e, tl) := by
  simp [request, hsend]

/-- Witness for C6: a send hook that raises ConnectionError leaves the
pre-existing observation record untouched and surfaces the exception. -/
theorem C6_send_failure_preserves_observation_witness :
    request c6Cfg none c6SendF 0 none "get" "/users" {} c6TL
      = (.error { ty := "ConnectionError", msg := "refused" }, c6TL) :=
  C6_send_failure_preserves_observation c6Cfg none c6SendF 0 none "get" "/users"
    {} c6TL { ty := "ConnectionError", msg := "refused" } rfl

theorem dictGet_append (xs ys : List (String × String)) (k : String) :
    dictGet k (xs ++ ys) = (dictGet k xs).or (dictGet k ys) := by
  induction xs with
  | nil => simp [dictGet]
  | cons p xs ih =>
    by_cases h : p.1 = k
    · simp [dictGet, h]
    · simp [dictGet, h, ih]

theorem dictGet_merge_map (a b : List (String × String)) (k v : String)
    (hb : dictGet k b = some v) :
    dictGet k (a.map fun p => (p.1, (dictGet p.1 b).getD p.2))
      = (dictGet k a).map (fun _ => v) := by
  induction a with
  | nil => simp [dictGet]
  | cons p a ih =>
    by_cases h : p.1 = k
    · simp [dictGet, h, hb]
    · simp [dictGet, h, ih]

theorem dictGet_filter_absent (a b : List (String × String)) (k : String)
    (ha : dictGet k a = none) :
    dictGet k (b.filter fun p => (dictGet p.1 a).isNone) = dictGet k b := by
  induction b with
  | nil => simp
  | cons p b ih =>
    by_cases h : p.1 = k
    · have hp : (dictGet p.1 a).isNone = true := by rw [h, ha]; rfl
      simp [List.filter_cons, hp, dictGet, h, ha]
    · by_cases hpa : (dictGet p.1 a).isNone
      · simp [List.filter_cons, hpa, dictGet, h, ih]
      · simp [List.filter_cons, hpa, dictGet, h, ih]

/-- In a Python dict merge, a key present in the overriding dict maps to
the overriding value. -/
theorem dictGet_merge_override (a b : List (String × String)) (k v : String)
    (hb : dictGet k b = some v) : dictGet k (dictMerge a b) = some v := by
  rw [dictMerge, dictGet_append, dictGet_merge_map a b k v hb]
  cases ha : dictGet k a with
  | none => simp [dictGet_filter_absent a b k ha, hb]
  | some va => simp

/-- C9: per-call headers overlay the client defaults (a shared key takes
the call-supplied value), the client state — including default_headers —
is returned unchanged, the method is upper-cased, and with a configured
api_version the URL is base_url ++ "/api/" ++ version ++ "/" ++ endpoint
with the endpoint's leading slashes stripped. -/
theorem C9_prepare_request_shape (c : ClientCfg) (method endpoint : String)
    (kw : Kwargs) (k vd vc ver : String)
    (hd : dictGet k c.default_headers = some vd)
    (hc : dictGet k kw.headers = some vc)
    (hv : c.api_version = some ver) :
    dictGet k (prepare_request c method endpoint kw).1.headers = some vc ∧
    (prepare_request c method endpoint kw).2 = c ∧
    (prepare_request c method endpoint kw).1.method = method.toUpper ∧
    (prepare_request c method endpoint kw).1.url
      = c.base_url ++ "/api/" ++ ver ++ "/" ++ lstripSlash endpoint := by
  refine ⟨?_, rfl, rfl, ?_⟩
  · simpa [prepare_request] using
      dictGet_merge_override c.default_headers kw.headers k vc hc
  · simp [prepare_request, hv]

/-- Witness for C9: default X-Trace header overridden by the per-call
value, v2-prefixed URL, upper-cased method, unchanged client state. -/
theorem C9_prepare_request_shape_witness :
    dictGet "X-Trace" (prepare_request c9Cfg "get" "/users" c9Kwargs).1.headers
      = some "call" ∧
    (prepare_request c9Cfg "get" "/users" c9Kwargs).2 = c9Cfg ∧
    (prepare_request c9Cfg "get" "/users" c9Kwargs).1.method = "get".toUpper ∧
    (prepare_request c9Cfg "get" "/users" c9Kwargs).1.url
      = c9Cfg.base_url ++ "/api/" ++ "v2" ++ "/" ++ lstripSlash "/users" :=
  C9_prepare_request_shape c9Cfg "get" "/users" c9Kwargs "X-Trace" "default"
    "call" "v2" (by decide) (by decide) rfl

/-! ## Producer lifecycle (core/messaging/base_producer.py) -/

/-- C7: the PublishResult returned to the caller equals the transport
_send result in success, topic, partition, offset and error, while its
elapsed_ms is the wall-clock time measured around exactly the send step,
independent of the durations of the prepare and authenticate stages (and
of anything outside publish, such as retry waits). -/
theorem C7_publish_elapsed_is_send_only (default_topic : Option String)
    (tsMs : Nat) (sendF : EventEnvelope → PublishResult × ℚ)
    (ev : EventEnvelope) (now0 dtPrepare dtAuth : ℚ) (tl : ProducerThreadLocal) :
    (publish default_topic tsMs sendF ev now0 dtPrepare dtAuth tl).1 =
      { (sendF (prepare_event default_topic tsMs ev)).1 with
        elapsed_ms := (sendF (prepare_event default_topic tsMs ev)).2 * 1000 } := by
  simp [publish]

/-! ## Allure attachment handler (core/response_handler.py) -/

/-- C8 counterexample: a reporting-sink failure that is not an
ImportError is not swallowed by AllureAttachmentHandler._process — the
handler propagates the exception instead of returning the response. -/
theorem C8_sink_failure_counterexample :
    allure_attach_process true c8SinkFail c8Resp
      = .error { ty := "RuntimeError", msg := "sink down" } ∧
    allure_attach_process true c8SinkFail c8Resp ≠ .ok c8Resp := by
  refine ⟨rfl, ?_⟩
  intro h
  simp [allure_attach_process, c8SinkFail, c8Resp] at h

/-- C8 amended: the attachment handler swallows exactly the ImportError
failures (in particular an unavailable reporting library) and returns
the response unchanged — also when the body is absent or the attachment
succeeds — but any non-ImportError exception raised while attaching
propagates to the caller. -/
theorem C8_attachment_error_policy (avail : Bool)
    (attachF : String → Except Exc Unit) (resp : APIResponse) (b : String)
    (e : Exc) :
    (avail = false → allure_attach_process avail attachF resp = .ok resp) ∧
    (resp.json_data = none → allure_attach_process avail attachF resp = .ok resp) ∧
    (resp.json_data = some b → attachF b = .ok () →
      allure_attach_process avail attachF resp = .ok resp) ∧
    (resp.json_data = some b → attachF b = .error e → e.ty = "ImportError" →
      allure_attach_process avail attachF resp = .ok resp) ∧
    (avail = true → resp.json_data = some b → attachF b = .error e →
      e.ty ≠ "ImportError" →
      allure_attach_process avail attachF resp = .error e) := by
  refine ⟨?_, ?_, ?_, ?_, ?_⟩
  · intro h
    subst h
    simp [allure_attach_process]
  · intro h
    cases avail <;> simp [allure_attach_process, h]
  · intro h1 h2
    cases avail <;> simp [allure_attach_process, h1, h2]
  · intro h1 h2 h3
    cases avail <;> simp [allure_attach_process, h1, h2, h3]
  · intro h0 h1 h2 h3
    subst h0
    simp [allure_attach_process, h1, h2, h3]

/-- Witness for the amended C8: the RuntimeError sink failure propagates
when the library is importable, and the response passes through
unchanged when it is not. -/
theorem C8_attachment_error_policy_witness :
    allure_attach_process true c8SinkFail c8Resp
      = .error { ty := "RuntimeError", msg := "sink down" } ∧
    allure_attach_process false c8SinkFail c8Resp = .ok c8Resp :=
  ⟨(C8_attachment_error_policy true c8SinkFail c8Resp "x"
      { ty := "RuntimeError", msg := "sink down" }).2.2.2.2 rfl rfl rfl
      (by decide),
   (C8_attachment_error_policy false c8SinkFail c8Resp "x"
      { ty := "RuntimeError", msg := "sink down" }).1 rfl⟩

/-! ## OAuth2 token cache (core/auth/oauth2_auth.py) -/

/-- Serialized callers finding a fresh token perform no refresh, receive
the cached token, and leave the state unchanged. -/
theorem runCallers_fresh (tok : String) (expiresIn : ℚ) (exp : ℚ) :
    ∀ ts : List ℚ, (∀ t ∈ ts, t < exp) →
      (runCallers tok expiresIn ts { token := some tok, expires_at := exp }).1
        = List.replicate ts.length tok ∧
      (runCallers tok expiresIn ts { token := some tok, expires_at := exp }).2.2
        = 0 := by
  intro ts
  induction ts with
  | nil => intro _; exact ⟨rfl, rfl⟩
  | cons t ts ih =>
    intro hlt
    have ht : t < exp := hlt t (List.mem_cons_self _ _)
    have hcond : ¬ ((some tok : Option String) = none ∨ exp ≤ t) := by
      push_neg
      exact ⟨Option.some_ne_none tok, ht⟩
    have hrec := ih (fun x hx => hlt x (List.mem_cons_of_mem _ hx))
    simp only [runCallers, getToken, if_neg hcond]
    exact ⟨by simp [hrec.1, List.replicate_succ], by simp [hrec.2]⟩

/-- C10: with the whole token-cache access serialized by the instance
lock, N callers that arrive while the cached credential is absent or
expired trigger exactly one refresh — performed by the first caller —
and every caller receives the freshly cached token, as long as all
callers arrive within the refreshed token's validity window. -/
theorem C10_single_refresh (tok : String) (expiresIn : ℚ) (s0 : AuthState)
    (t1 : ℚ) (rest : List ℚ)
    (hexp : s0.token = none ∨ s0.expires_at ≤ t1)
    (hwin : ∀ t ∈ rest, t1 ≤ t ∧ t < t1 + max (expiresIn - 60) 0) :
    (runCallers tok expiresIn (t1 :: rest) s0).1
      = List.replicate (rest.length + 1) tok ∧
    (runCallers tok expiresIn (t1 :: rest) s0).2.2 = 1 := by
  have hrest := runCallers_fresh tok expiresIn (t1 + max (expiresIn - 60) 0) rest
    (fun t ht => (hwin t ht).2)
  simp only [runCallers, getToken, if_pos hexp]
  exact ⟨by simp [hrest.1, List.replicate_succ], by simp [hrest.2]⟩

/-- Witness for C10: three callers at times 0, 1, 2 against an empty
cache with expires_in = 3600: one refresh, every caller gets the token. -/
theorem C10_single_refresh_witness :
    (runCallers "T" 3600 [0, 1, 2] { token := none, expires_at := 0 }).1
      = List.replicate 3 "T" ∧
    (runCallers "T" 3600 [0, 1, 2] { token := none, expires_at := 0 }).2.2 = 1 :=
  C10_single_refresh "T" 3600 { token := none, expires_at := 0 } 0 [1, 2]
    (Or.inl rfl)
    (by
      intro t ht
      simp only [List.mem_cons, List.not_mem_nil, or_false] at ht
      rcases ht with h | h <;> subst h <;>
        exact ⟨by norm_num, by rw [max_eq_left (by norm_num)]; norm_num⟩)

end ATF
